import Mathlib

/-!
Shallow embedding of the cline-telemetry server (src/server.js, together with
the db helper and the scripts/init_db.sh migration) and proofs about the
behaviour of its capture, batch, stats and recent-events paths.

JSON values reaching the HTTP handlers are modelled by the mutual inductive
`JVal`/`JArr`/`JObj`; JavaScript truthiness, `||`, optional chaining and
object spread are modelled by `JVal.truthy`, `jsOr`, `jchain` and
`mergeEvent`.  The Postgres events table is modelled as a list of `Row`s in
insertion order together with the next SERIAL id; the per-day JSONL log files
are modelled as a list of (day, serialized object) lines.  Timestamps are
integers counting minutes; `dayOf` extracts the UTC calendar day, and the
31-day SQL interval of the stats query is `statsWindowMinutes`.
-/

namespace ClineTelemetry

mutual
/-- JSON-compatible values (the shape of `req.body`, of batch elements and of
the `properties` column). -/
inductive JVal where
  | jnull
  | jbool (b : Bool)
  | jnum  (n : Int)
  | jstr  (s : String)
  | jarr  (xs : JArr)
  | jobj  (fs : JObj)
deriving DecidableEq
inductive JArr where
  | nil
  | cons (hd : JVal) (tl : JArr)
deriving DecidableEq
inductive JObj where
  | nil
  | cons (k : String) (v : JVal) (tl : JObj)
deriving DecidableEq
end

def JArr.toList : JArr → List JVal
  | JArr.nil => []
  | JArr.cons x xs => x :: JArr.toList xs

def JObj.toList : JObj → List (String × JVal)
  | JObj.nil => []
  | JObj.cons k v tl => (k, v) :: JObj.toList tl

/-- Key/value bindings of a JSON object, in source order. -/
abbrev Fields := List (String × JVal)

/-- JavaScript truthiness of a JSON value. -/
def JVal.truthy : JVal → Bool
  | JVal.jnull => false
  | JVal.jbool b => b
  | JVal.jnum n => decide (n ≠ 0)
  | JVal.jstr s => decide (s ≠ "")
  | JVal.jarr _ => true
  | JVal.jobj _ => true

/-- Property lookup on a JSON object; `none` models JS `undefined`. -/
def jget (fs : Fields) (k : String) : Option JVal :=
  (fs.find? (fun p => decide (p.1 = k))).map (fun p => p.2)

/-- Optional chaining `v?.k`: property access that yields `undefined` unless
`v` is an object carrying the key. -/
def jchain (v : JVal) (k : String) : Option JVal :=
  match v with
  | JVal.jobj fs => jget fs.toList k
  | _ => none

/-- JavaScript `a || b` on possibly-undefined values. -/
def jsOr (a b : Option JVal) : Option JVal :=
  match a with
  | some v => if v.truthy then some v else b
  | none => b

/-- JavaScript `x || null`, as used for the `user_id` and `properties`
insert parameters. -/
def jsOrNull (a : Option JVal) : JVal :=
  match a with
  | some v => if v.truthy then v else JVal.jnull
  | none => JVal.jnull

/-! ### Time -/

def minutesPerDay : Int := 1440

/-- The `INTERVAL '30 days'` of the stats query, in minutes. -/
def statsWindowMinutes : Int := 30 * minutesPerDay

/-- UTC calendar day of a timestamp (what `toISOString().split('T')[0]` and
`captured_at::date` key on). -/
def dayOf (t : Int) : Int := Int.fdiv t minutesPerDay

/-! ### Store state -/

/-- One row of the `events` table. -/
structure Row where
  id : Nat
  event_type : JVal
  user_id : JVal
  properties : JVal
  captured_at : Int
deriving DecidableEq

/-- Server-side persistent state: the per-day JSONL log lines in append
order, the `events` rows in insertion order, and the next SERIAL id. -/
structure St where
  logs : List (Int × Fields)
  rows : List Row
  nextId : Nat
deriving DecidableEq

/-- Models `new Date(x)` applied to a truthy timestamp field.  Timestamps in
this embedding are epoch-minute numbers, which `new Date` maps through
verbatim; other shapes fall outside the fragment reasoned about and map
to 0. -/
def parseTs : JVal → Int
  | JVal.jnum n => n
  | _ => 0

/-- The row built by the `INSERT INTO events(event_type, user_id,
properties, captured_at)` statement of `appendEvent`. -/
def mkRow (id : Nat) (now : Int) (ev : Fields) : Row :=
  { id := id
  , event_type := (jget ev "event").getD JVal.jnull
  , user_id := jsOrNull (jget ev "user_id")
  , properties := jsOrNull (jget ev "properties")
  , captured_at :=
      match jget ev "timestamp" with
      | some v => if v.truthy then parseTs v else now
      | none => now }

/-- The object `{ timestamp: new Date().toISOString(), ...req.body }`: the
body's own keys override the stamped default, so the default binding goes
last (lookup by `jget` takes the first binding). -/
def mergeEvent (now : Int) (body : Fields) : Fields :=
  body ++ [("timestamp", JVal.jnum now)]

/-- `appendEvent(ev)`: synchronously append one line to today's log file,
then fire-and-forget the Postgres insert.  `logOk` and `storeOk` model the
outcome of the two legs: a failed `fs.appendFileSync` throws (the `.error`
branch, nothing written), while a failed `pool.query` is caught by the
attached `.catch` and only logged, so both `storeOk` cases return `.ok`. -/
def appendEvent (now : Int) (logOk storeOk : Bool) (ev : Fields) (s : St) :
    Except String St :=
  if logOk then
    let s1 : St := { s with logs := s.logs ++ [(dayOf now, ev)] }
    if storeOk then
      Except.ok { s1 with rows := s1.rows ++ [mkRow s1.nextId now ev]
                        , nextId := s1.nextId + 1 }
    else
      Except.ok s1
  else
    Except.error "EACCES: log append failed"

/-- Response of the capture handlers: `{status: 1}` or a 500 with an error
body. -/
inductive CapResp where
  | ok
  | err500 (msg : String)
deriving DecidableEq

/-- The `POST /capture/` handler: stamp a default timestamp, append the
event, answer `{status: 1}`; any thrown error is caught and answered with a
generic 500. -/
def captureOne (now : Int) (logOk storeOk : Bool) (body : Fields) (s : St) :
    CapResp × St :=
  match appendEvent now logOk storeOk (mergeEvent now body) s with
  | Except.ok s1 => (CapResp.ok, s1)
  | Except.error _ => (CapResp.err500 "Internal server error", s)

/-- Spreading a batch element into `{timestamp: ..., ...ev}`: an object
contributes its bindings, any other value contributes none. -/
def asFields : JVal → Fields
  | JVal.jobj fs => fs.toList
  | _ => []

/-- The value destructured by `const { batch = [] } = req.body || {}`:
the body's `batch` binding when the body is an object carrying one,
otherwise the default empty array. -/
def batchOf (body : JVal) : JVal :=
  match body with
  | JVal.jobj fs => (jget fs.toList "batch").getD (JVal.jarr JArr.nil)
  | _ => JVal.jarr JArr.nil

/-- The `batch.forEach` loop: process elements left to right; per-element
leg outcomes are drawn from `flags` (defaulting to success when the list is
exhausted).  A throw from `appendEvent` propagates out of `forEach`, so the
loop stops at the first log-append failure, keeping the state accumulated so
far. -/
def goBatch (now : Int) (flags : List (Bool × Bool)) (evs : List JVal)
    (s : St) : Option String × St :=
  match evs with
  | [] => (none, s)
  | e :: rest =>
    let f := flags.headD (true, true)
    match appendEvent now f.1 f.2 (mergeEvent now (asFields e)) s with
    | Except.ok s1 => goBatch now flags.tail rest s1
    | Except.error msg => (some msg, s)

/-- The `POST /batch/` handler. -/
def captureBatch (now : Int) (flags : List (Bool × Bool)) (body : JVal)
    (s : St) : CapResp × St :=
  match batchOf body with
  | JVal.jarr evs =>
    match goBatch now flags evs.toList s with
    | (none, s1) => (CapResp.ok, s1)
    | (some _, s1) => (CapResp.err500 "Internal server error", s1)
  | _ => (CapResp.err500 "Internal server error", s)

/-! ### Read paths -/

/-- The `GET /api/events` query `SELECT * FROM events WHERE
captured_at::date = CURRENT_DATE ORDER BY id DESC LIMIT 20` (rows are stored
in insertion order, so ascending SERIAL id appears as list order and
`ORDER BY id DESC` as reversal); the handler's LIMIT is 20. -/
def recentToday (limit : Nat) (now : Int) (s : St) : List Row :=
  ((s.rows.filter (fun r => decide (dayOf r.captured_at = dayOf now))).reverse).take limit

/-- Rows delivered by `SELECT event_type, properties FROM events WHERE
captured_at >= NOW() - INTERVAL '30 days'`. -/
def statsRows (now : Int) (s : St) : List Row :=
  s.rows.filter (fun r => decide (now - statsWindowMinutes ≤ r.captured_at))

/-- One step of `totals[eventType] = (totals[eventType] || 0) + 1` on the
totals object, modelled as an association list (a fresh key is appended, an
existing key is bumped in place). -/
def bump (m : List (JVal × Nat)) (t : JVal) : List (JVal × Nat) :=
  match m with
  | [] => [(t, 1)]
  | (k, n) :: rest => if k = t then (k, n + 1) :: rest else (k, n) :: bump rest t

/-- Reading `totals[T]` from the final totals object (0 when absent). -/
def lookupTotal (m : List (JVal × Nat)) (t : JVal) : Nat :=
  match m.find? (fun p => decide (p.1 = t)) with
  | some p => p.2
  | none => 0

/-- The `accepted`/`rejected` counter objects of the stats report. -/
structure Buckets where
  option_selected : Nat
  thumbs_up : Nat
  options_ignored : Nat
  thumbs_down : Nat
deriving DecidableEq

/-- The feedback value `ev.properties?.feedbackType ||
ev.properties?.feedback_type` probed by the stats loop. -/
def fbOf (props : JVal) : Option JVal :=
  jsOr (jchain props "feedbackType") (jchain props "feedback_type")

/-- One iteration of the stats `rows.forEach` over the counter objects.  The
four counters are updated independently; each increment fires exactly when
its guard in the source fires. -/
def stepBuckets (b : Buckets) (r : Row) : Buckets :=
  let fb := if r.event_type = JVal.jstr "task.feedback"
            then fbOf r.properties else none
  { option_selected := b.option_selected +
      (if r.event_type = JVal.jstr "task.option_selected" then 1 else 0)
  , thumbs_up := b.thumbs_up +
      (if fb = some (JVal.jstr "thumbs_up") then 1 else 0)
  , options_ignored := b.options_ignored +
      (if r.event_type = JVal.jstr "task.options_ignored" then 1 else 0)
  , thumbs_down := b.thumbs_down +
      (if fb = some (JVal.jstr "thumbs_down") then 1 else 0) }

/-- The `GET /stats` aggregation over the windowed rows: the totals object
and the accepted/rejected counters. -/
def computeStats (now : Int) (s : St) : List (JVal × Nat) × Buckets :=
  let rows := statsRows now s
  (rows.foldl (fun m r => bump m r.event_type) [],
   rows.foldl stepBuckets ⟨0, 0, 0, 0⟩)

/-! ### Schema initialisation -/

/-- Schema-level state of the database: the events table's column list when
the table exists, and the created index names. -/
structure Db where
  table : Option (List String)
  indexes : List String
deriving DecidableEq

def eventsColumns : List String :=
  ["id", "event_type", "user_id", "properties", "captured_at"]

/-- `CREATE TABLE [IF NOT EXISTS] events (...)`. -/
def createTableEvents (ifNotExists : Bool) (d : Db) : Except String Db :=
  match d.table with
  | some _ =>
    if ifNotExists then Except.ok d
    else Except.error "relation events already exists"
  | none => Except.ok { d with table := some eventsColumns }

/-- `CREATE INDEX [IF NOT EXISTS] idx_events_captured_at ON events
(captured_at)`. -/
def createIndexCapturedAt (ifNotExists : Bool) (d : Db) : Except String Db :=
  if "idx_events_captured_at" ∈ d.indexes then
    if ifNotExists then Except.ok d
    else Except.error "index idx_events_captured_at already exists"
  else Except.ok { d with indexes := d.indexes ++ ["idx_events_captured_at"] }

/-- The scripts/init_db.sh migration: create the events table and the
captured_at index, both guarded by IF NOT EXISTS (db.js's `ensureSchema`
startup step runs the same guarded CREATE TABLE). -/
def initSchema (d : Db) : Except String Db :=
  match createTableEvents true d with
  | Except.ok d1 => createIndexCapturedAt true d1
  | Except.error e => Except.error e

/-! ### Specification-side predicates

These definitions follow the wording of the specification (not the code) and
are compared against the behaviour of the embedded handlers. -/

/-- Conversion of a plain list into a JSON array value. -/
def JArr.ofList : List JVal → JArr
  | [] => JArr.nil
  | x :: xs => JArr.cons x (JArr.ofList xs)

/-- Data of a row observed by a client: every field except the
store-assigned id. -/
def rowData (r : Row) : JVal × JVal × JVal × Int :=
  (r.event_type, r.user_id, r.properties, r.captured_at)

/-- Spec reading of the feedback test as stated by the claim: the
feedback-type property equals `val` under either the camelCase or the
snake_case key. -/
def eitherKeyIs (val : String) (props : JVal) : Bool :=
  decide (jchain props "feedbackType" = some (JVal.jstr val)) ||
  decide (jchain props "feedback_type" = some (JVal.jstr val))

/-- The camelCase feedback key is absent or holds a falsy value. -/
def camelFalsy (props : JVal) : Bool :=
  match jchain props "feedbackType" with
  | some v => !v.truthy
  | none => true

/-- Amended spec reading of the feedback test: the camelCase key wins when
truthy, and the snake_case key is consulted only as a fallback. -/
def fallbackKeyIs (val : String) (props : JVal) : Bool :=
  decide (jchain props "feedbackType" = some (JVal.jstr val)) ||
  (camelFalsy props && decide (jchain props "feedback_type" = some (JVal.jstr val)))

/-- The row predicate counted by the thumbs counters of the stats loop. -/
def fbCounted (val : String) (r : Row) : Bool :=
  decide (r.event_type = JVal.jstr "task.feedback") &&
  decide (fbOf r.properties = some (JVal.jstr val))

/-- Spec reading of membership in the trailing 30-day window ending now. -/
def inWindowSpec (now t : Int) : Bool :=
  decide (now - statsWindowMinutes ≤ t) && decide (t ≤ now)

/-! ### Concrete states used by counterexamples and witnesses -/

/-- Fresh server state: no log lines, no rows, SERIAL counter at 1. -/
def st0 : St := ⟨[], [], 1⟩

/-- A payload that backfills its timestamp to minute 1 (day 0). -/
def pBackfill : Fields :=
  [("event", JVal.jstr "task.feedback"), ("timestamp", JVal.jnum 1)]

/-- A payload with no timestamp field. -/
def pNoTs : Fields := [("event", JVal.jstr "task.feedback")]

/-- A payload carrying timestamp 500. -/
def pTs : Fields := [("timestamp", JVal.jnum 500)]

/-- Two event-shaped batch elements. -/
def e1 : JVal := JVal.jobj (JObj.cons "event" (JVal.jstr "a") JObj.nil)

def e2 : JVal := JVal.jobj (JObj.cons "event" (JVal.jstr "b") JObj.nil)

/-- A well-formed two-element batch body. -/
def batchBody2 : JVal :=
  JVal.jobj (JObj.cons "batch"
    (JVal.jarr (JArr.cons e1 (JArr.cons e2 JArr.nil))) JObj.nil)

/-- A body whose batch field is present but not an array. -/
def badBatchBody : JVal :=
  JVal.jobj (JObj.cons "batch" (JVal.jnum 5) JObj.nil)

/-- A task.feedback row whose camelCase feedback key holds the truthy
non-thumbs value "other" while the snake_case key holds "thumbs_up". -/
def rMasked : Row :=
  ⟨1, JVal.jstr "task.feedback", JVal.jnull,
   JVal.jobj (JObj.cons "feedbackType" (JVal.jstr "other")
     (JObj.cons "feedback_type" (JVal.jstr "thumbs_up") JObj.nil)), 43200⟩

def stMasked : St := ⟨[], [rMasked], 2⟩

/-- A task.feedback row with no properties at all. -/
def rNoProps : Row := ⟨1, JVal.jstr "task.feedback", JVal.jnull, JVal.jnull, 43200⟩

/-- A state holding one event of type "x" captured ten minutes after
now = 43200. -/
def stFuture : St := ⟨[], [⟨1, JVal.jstr "x", JVal.jnull, JVal.jnull, 43210⟩], 2⟩

/-- A row captured exactly one minute before the 30-day window start for
now = 43200. -/
def rBoundary : Row := ⟨1, JVal.jstr "x", JVal.jnull, JVal.jnull, -1⟩

def stBoundary : St := ⟨[], [rBoundary], 2⟩

/-- A two-row state: one event today (day 0), one on a later day. -/
def stDays : St :=
  ⟨[], [⟨1, JVal.jstr "a", JVal.jnull, JVal.jnull, 100⟩,
        ⟨2, JVal.jstr "b", JVal.jnull, JVal.jnull, 2000⟩], 3⟩

/-! ### Helper lemmas -/

theorem JArr.toList_ofList (xs : List JVal) : (JArr.ofList xs).toList = xs := by
  induction xs with
  | nil => rfl
  | cons x xs ih => simp [JArr.ofList, JArr.toList, ih]

theorem jget_cons (p : String × JVal) (fs : Fields) (k : String) :
    jget (p :: fs) k = if p.1 = k then some p.2 else jget fs k := by
  by_cases h : p.1 = k
  · simp [jget, List.find?_cons_of_pos, h]
  · simp [jget, List.find?_cons_of_neg, h]

theorem jget_append_none (fs gs : Fields) (k : String) (h : jget fs k = none) :
    jget (fs ++ gs) k = jget gs k := by
  induction fs with
  | nil => rfl
  | cons p fs ih =>
    rw [jget_cons] at h
    by_cases hp : p.1 = k
    · rw [if_pos hp] at h; cases h
    · rw [if_neg hp] at h
      rw [List.cons_append, jget_cons, if_neg hp]
      exact ih h

theorem jget_append_some (fs gs : Fields) (k : String) (v : JVal)
    (h : jget fs k = some v) : jget (fs ++ gs) k = some v := by
  induction fs with
  | nil => cases h
  | cons p fs ih =>
    rw [jget_cons] at h
    by_cases hp : p.1 = k
    · rw [if_pos hp] at h
      rw [List.cons_append, jget_cons, if_pos hp]
      exact h
    · rw [if_neg hp] at h
      rw [List.cons_append, jget_cons, if_neg hp]
      exact ih h

theorem jget_mergeEvent_of_ne (now : Int) (P : Fields) (k : String)
    (h : k ≠ "timestamp") : jget (mergeEvent now P) k = jget P k := by
  cases hP : jget P k with
  | none =>
    rw [mergeEvent, jget_append_none _ _ _ hP, jget_cons,
        if_neg (fun hh : "timestamp" = k => h hh.symm)]
    rfl
  | some v => rw [mergeEvent, jget_append_some _ _ _ _ hP]

theorem jget_merge_ts_none (now : Int) (P : Fields)
    (h : jget P "timestamp" = none) :
    jget (mergeEvent now P) "timestamp" = some (JVal.jnum now) := by
  rw [mergeEvent, jget_append_none _ _ _ h, jget_cons]
  rfl

theorem jget_merge_ts_some (now : Int) (P : Fields) (v : JVal)
    (h : jget P "timestamp" = some v) :
    jget (mergeEvent now P) "timestamp" = some v := by
  rw [mergeEvent, jget_append_some _ _ _ _ h]

theorem mkRow_capturedAt_default (id : Nat) (now : Int) (P : Fields)
    (h : jget P "timestamp" = none) :
    (mkRow id now (mergeEvent now P)).captured_at = now := by
  simp only [mkRow]
  rw [jget_merge_ts_none now P h]
  by_cases hz : now = 0
  · simp [JVal.truthy, parseTs, hz]
  · simp [JVal.truthy, parseTs, hz]

theorem mkRow_capturedAt_verbatim (id : Nat) (now : Int) (P : Fields)
    (t : Int) (h : jget P "timestamp" = some (JVal.jnum t)) (ht : t ≠ 0) :
    (mkRow id now (mergeEvent now P)).captured_at = t := by
  simp only [mkRow]
  rw [jget_merge_ts_some now P _ h]
  simp [JVal.truthy, parseTs, ht]

theorem captureOne_rows (now : Int) (P : Fields) (s : St) :
    (captureOne now true true P s).2.rows =
      s.rows ++ [mkRow s.nextId now (mergeEvent now P)] := rfl

theorem captureOne_logs_ok (now : Int) (b : Bool) (P : Fields) (s : St) :
    (captureOne now true b P s).2.logs =
      s.logs ++ [(dayOf now, mergeEvent now P)] := by
  cases b <;> rfl

theorem rowData_mkRow_merge (id : Nat) (now : Int) (P : Fields) :
    rowData (mkRow id now (mergeEvent now P)) =
      ((jget P "event").getD JVal.jnull, jsOrNull (jget P "user_id"),
       jsOrNull (jget P "properties"),
       (mkRow id now (mergeEvent now P)).captured_at) := by
  simp only [rowData, mkRow]
  rw [jget_mergeEvent_of_ne now P "event" (by decide),
      jget_mergeEvent_of_ne now P "user_id" (by decide),
      jget_mergeEvent_of_ne now P "properties" (by decide)]

theorem recentToday_one_append (now : Int) (lg : List (Int × Fields))
    (rows : List Row) (n : Nat) (r : Row)
    (h : dayOf r.captured_at = dayOf now) :
    recentToday 1 now ⟨lg, rows ++ [r], n⟩ = [r] := by
  unfold recentToday
  rw [List.filter_append]
  have h1 : List.filter (fun x => decide (dayOf x.captured_at = dayOf now)) [r]
      = [r] := by simp [h]
  rw [h1, List.reverse_append]
  rfl

theorem appendEvent_true_logs (now : Int) (b : Bool) (ev : Fields) (s : St) :
    ∃ s1, appendEvent now true b ev s = Except.ok s1 ∧
          s1.logs = s.logs ++ [(dayOf now, ev)] := by
  cases b
  · exact ⟨_, rfl, rfl⟩
  · exact ⟨_, rfl, rfl⟩

theorem goBatch_logs_ok (now : Int) (evs : List JVal) :
    ∀ (flags : List (Bool × Bool)) (s : St), (∀ f ∈ flags, f.1 = true) →
      (goBatch now flags evs s).1 = none ∧
      (goBatch now flags evs s).2.logs =
        s.logs ++ evs.map (fun e => (dayOf now, mergeEvent now (asFields e))) := by
  induction evs with
  | nil => intro flags s _; exact ⟨rfl, by simp [goBatch]⟩
  | cons e rest ih =>
    intro flags s hf
    have hhead : (flags.headD (true, true)).1 = true := by
      cases flags with
      | nil => rfl
      | cons f fs => exact hf f (List.mem_cons_self f fs)
    have htail : ∀ f ∈ flags.tail, f.1 = true := by
      cases flags with
      | nil => intro f hfm; cases hfm
      | cons f fs => intro g hg; exact hf g (List.mem_cons_of_mem f hg)
    obtain ⟨s1, he, hl⟩ :=
      appendEvent_true_logs now (flags.headD (true, true)).2
        (mergeEvent now (asFields e)) s
    have hrw : goBatch now flags (e :: rest) s = goBatch now flags.tail rest s1 := by
      simp only [goBatch]
      rw [hhead, he]
    obtain ⟨ih1, ih2⟩ := ih flags.tail s1 htail
    rw [hrw]
    refine ⟨ih1, ?_⟩
    rw [ih2, hl, List.append_assoc]
    rfl

theorem lookupTotal_nil (t : JVal) : lookupTotal [] t = 0 := rfl

theorem lookupTotal_cons (k : JVal) (n : Nat) (m : List (JVal × Nat)) (t : JVal) :
    lookupTotal ((k, n) :: m) t = if k = t then n else lookupTotal m t := by
  by_cases h : k = t
  · simp [lookupTotal, List.find?_cons_of_pos, h]
  · simp only [lookupTotal]
    rw [List.find?_cons_of_neg _ (by simpa using h), if_neg h]

theorem lookupTotal_bump (m : List (JVal × Nat)) (t u : JVal) :
    lookupTotal (bump m u) t = lookupTotal m t + (if u = t then 1 else 0) := by
  induction m with
  | nil =>
    by_cases h : u = t
    · simp [bump, lookupTotal_cons, lookupTotal_nil, h]
    · simp [bump, lookupTotal_cons, lookupTotal_nil, h]
  | cons p m ih =>
    obtain ⟨k, n⟩ := p
    by_cases hku : k = u
    · subst hku
      by_cases hkt : k = t
      · simp [bump, lookupTotal_cons, hkt]
      · simp [bump, lookupTotal_cons, hkt]
    · by_cases hkt : k = t
      · subst hkt
        have huk : ¬u = k := fun h => hku h.symm
        simp [bump, hku, lookupTotal_cons, huk]
      · simp [bump, hku, lookupTotal_cons, hkt, ih]

theorem lookupTotal_foldl (rows : List Row) (m : List (JVal × Nat)) (t : JVal) :
    lookupTotal (rows.foldl (fun acc r => bump acc r.event_type) m) t =
      lookupTotal m t + rows.countP (fun r => decide (r.event_type = t)) := by
  induction rows generalizing m with
  | nil => simp
  | cons r rows ih =>
    rw [List.foldl_cons, ih, List.countP_cons, lookupTotal_bump]
    by_cases h : r.event_type = t
    · simp [h]
      omega
    · simp [h]

theorem stepBuckets_thumbs_up (b : Buckets) (r : Row) :
    (stepBuckets b r).thumbs_up =
      b.thumbs_up + (if fbCounted "thumbs_up" r then 1 else 0) := by
  simp only [stepBuckets, fbCounted]
  by_cases hty : r.event_type = JVal.jstr "task.feedback"
  · simp [hty]
  · simp [hty]

theorem stepBuckets_thumbs_down (b : Buckets) (r : Row) :
    (stepBuckets b r).thumbs_down =
      b.thumbs_down + (if fbCounted "thumbs_down" r then 1 else 0) := by
  simp only [stepBuckets, fbCounted]
  by_cases hty : r.event_type = JVal.jstr "task.feedback"
  · simp [hty]
  · simp [hty]

theorem foldl_thumbs_up (rows : List Row) (b : Buckets) :
    (rows.foldl stepBuckets b).thumbs_up =
      b.thumbs_up + rows.countP (fbCounted "thumbs_up") := by
  induction rows generalizing b with
  | nil => simp
  | cons r rows ih =>
    rw [List.foldl_cons, ih, List.countP_cons, stepBuckets_thumbs_up]
    by_cases h : fbCounted "thumbs_up" r
    · simp [h]
      omega
    · simp [h]

theorem foldl_thumbs_down (rows : List Row) (b : Buckets) :
    (rows.foldl stepBuckets b).thumbs_down =
      b.thumbs_down + rows.countP (fbCounted "thumbs_down") := by
  induction rows generalizing b with
  | nil => simp
  | cons r rows ih =>
    rw [List.foldl_cons, ih, List.countP_cons, stepBuckets_thumbs_down]
    by_cases h : fbCounted "thumbs_down" r
    · simp [h]
      omega
    · simp [h]

theorem fbOf_eq_fallback (props : JVal) (val : String) (hval : val ≠ "") :
    decide (fbOf props = some (JVal.jstr val)) = fallbackKeyIs val props := by
  cases hc : jchain props "feedbackType" with
  | none => simp [fbOf, jsOr, fallbackKeyIs, camelFalsy, hc]
  | some v =>
    by_cases ht : v.truthy = true
    · simp [fbOf, jsOr, fallbackKeyIs, camelFalsy, hc, ht]
    · have ht2 : v.truthy = false := by simpa using ht
      have hv : ¬(v = JVal.jstr val) := by
        intro he
        rw [he] at ht2
        simp [JVal.truthy, hval] at ht2
      simp [fbOf, jsOr, fallbackKeyIs, camelFalsy, hc, ht2, hv]

/-! ### Claim theorems -/

/-- C1, counterexample: the payload `pBackfill` is a valid event payload
carrying the backfilled timestamp 1 (day 0).  Captured into a fresh store at
now = 14400 (day 10), `recentToday 1` returns no event at all — in
particular no event whose fields match the payload — because the query is
scoped to the current calendar day while the stored `capturedAt` is the
trusted backfilled timestamp. -/
theorem c1_counterexample :
    recentToday 1 14400 (captureOne 14400 true true pBackfill st0).2 = [] := by
  rfl

/-- C1 (amended): for every payload P whose timestamp, when carried (as a
truthy epoch number), falls on the current day — and always when P carries
none — `captureOne(P)` followed by `recentToday(1)` returns exactly one
event whose fields match P modulo the assigned id, the null-normalisation of
absent or falsy optional fields, and the timestamp defaulted at ingestion
when P carries none. -/
theorem c1_capture_roundtrip (now : Int) (s : St) (P : Fields) :
    (jget P "timestamp" = none →
      (recentToday 1 now (captureOne now true true P s).2).map rowData =
        [((jget P "event").getD JVal.jnull, jsOrNull (jget P "user_id"),
          jsOrNull (jget P "properties"), now)])
  ∧ (∀ t : Int, jget P "timestamp" = some (JVal.jnum t) → t ≠ 0 →
      dayOf t = dayOf now →
      (recentToday 1 now (captureOne now true true P s).2).map rowData =
        [((jget P "event").getD JVal.jnull, jsOrNull (jget P "user_id"),
          jsOrNull (jget P "properties"), t)]) := by
  have hstate : (captureOne now true true P s).2 =
      ⟨s.logs ++ [(dayOf now, mergeEvent now P)],
       s.rows ++ [mkRow s.nextId now (mergeEvent now P)], s.nextId + 1⟩ := rfl
  constructor
  · intro h
    have hcap := mkRow_capturedAt_default s.nextId now P h
    rw [hstate, recentToday_one_append _ _ _ _ _ (by rw [hcap])]
    rw [List.map_singleton, rowData_mkRow_merge, hcap]
  · intro t h ht hday
    have hcap := mkRow_capturedAt_verbatim s.nextId now P t h ht
    rw [hstate, recentToday_one_append _ _ _ _ _ (by rw [hcap, hday])]
    rw [List.map_singleton, rowData_mkRow_merge, hcap]

theorem c1_capture_roundtrip_witness :
    ((recentToday 1 700 (captureOne 700 true true pNoTs st0).2).map rowData =
      [((jget pNoTs "event").getD JVal.jnull, jsOrNull (jget pNoTs "user_id"),
        jsOrNull (jget pNoTs "properties"), 700)])
  ∧ ((recentToday 1 700 (captureOne 700 true true pTs st0).2).map rowData =
      [((jget pTs "event").getD JVal.jnull, jsOrNull (jget pTs "user_id"),
        jsOrNull (jget pTs "properties"), 500)]) :=
  ⟨(c1_capture_roundtrip 700 st0 pNoTs).1 rfl,
   (c1_capture_roundtrip 700 st0 pTs).2 500 rfl (by decide) (by decide)⟩

/-- C2: during capture the acknowledgment is decided solely by the log-write
leg — `{status: 1}` whenever the log append succeeds, regardless of the
store-insert outcome (whose failure is swallowed after the log line is
already written) — while a log-append failure is surfaced as a 500 response
with the generic message, leaving the state untouched. -/
theorem c2_error_propagation (now : Int) (logOk storeOk : Bool) (P : Fields)
    (s : St) :
    ((captureOne now logOk storeOk P s).1 =
      if logOk then CapResp.ok else CapResp.err500 "Internal server error")
  ∧ ((captureOne now true false P s).2.logs =
      s.logs ++ [(dayOf now, mergeEvent now P)])
  ∧ ((captureOne now false storeOk P s).2 = s) := by
  refine ⟨?_, rfl, rfl⟩
  cases logOk <;> cases storeOk <;> rfl

/-- C7: the stored event's capturedAt is the payload's timestamp verbatim
when the payload carries one (a truthy epoch number, not re-derived from
ingestion time), and is the ingestion time when the payload carries none. -/
theorem c7_captured_at (now : Int) (s : St) (P : Fields) :
    (jget P "timestamp" = none →
      ((captureOne now true true P s).2.rows.getLast?).map Row.captured_at =
        some now)
  ∧ (∀ t : Int, jget P "timestamp" = some (JVal.jnum t) → t ≠ 0 →
      ((captureOne now true true P s).2.rows.getLast?).map Row.captured_at =
        some t) := by
  constructor
  · intro h
    rw [captureOne_rows, List.getLast?_concat, Option.map_some']
    rw [mkRow_capturedAt_default s.nextId now P h]
  · intro t h ht
    rw [captureOne_rows, List.getLast?_concat, Option.map_some']
    rw [mkRow_capturedAt_verbatim s.nextId now P t h ht]

theorem c7_captured_at_witness :
    (((captureOne 700 true true pNoTs st0).2.rows.getLast?).map
        Row.captured_at = some 700)
  ∧ (((captureOne 700 true true pTs st0).2.rows.getLast?).map
        Row.captured_at = some 500) :=
  ⟨(c7_captured_at 700 st0 pNoTs).1 rfl,
   (c7_captured_at 700 st0 pTs).2 500 rfl (by decide)⟩

/-- C3, counterexample: in the two-element batch `batchBody2`, a log-append
failure on the first element (second leg healthy for both) aborts the loop:
the handler answers with a 500 instead of the claimed success
acknowledgment, and the state is unchanged — the second element was never
attempted although its own legs would have succeeded. -/
theorem c3_counterexample :
    captureBatch 100 [(false, true), (true, true)] batchBody2 st0 =
      (CapResp.err500 "Internal server error", st0) := by
  rfl

/-- C3 (amended): batch elements are processed sequentially in array order
with one log-append per element.  A store-insert failure on any element does
not prevent the rest: whenever every log leg succeeds, all n elements get
their log line appended in order, regardless of the store outcomes, and a
single success acknowledgment is returned.  A log-append failure, however,
aborts the loop: the remaining elements are not attempted and the handler
answers with a 500. -/
theorem c3_batch_behaviour (now : Int) (s : St) (evs : List JVal)
    (storeOks : List Bool) :
    ((captureBatch now (storeOks.map (fun b => (true, b)))
        (JVal.jobj (JObj.cons "batch" (JVal.jarr (JArr.ofList evs)) JObj.nil))
        s).1 = CapResp.ok)
  ∧ ((captureBatch now (storeOks.map (fun b => (true, b)))
        (JVal.jobj (JObj.cons "batch" (JVal.jarr (JArr.ofList evs)) JObj.nil))
        s).2.logs =
      s.logs ++ evs.map (fun e => (dayOf now, mergeEvent now (asFields e))))
  ∧ (∀ (e : JVal) (rest : JArr) (storeOk : Bool)
        (flags2 : List (Bool × Bool)),
      captureBatch now ((false, storeOk) :: flags2)
        (JVal.jobj (JObj.cons "batch" (JVal.jarr (JArr.cons e rest)) JObj.nil))
        s = (CapResp.err500 "Internal server error", s)) := by
  have hflags : ∀ f ∈ storeOks.map (fun b => ((true : Bool), b)), f.1 = true := by
    intro f hf
    rcases List.mem_map.1 hf with ⟨b, _, rfl⟩
    rfl
  have hbo : batchOf
      (JVal.jobj (JObj.cons "batch" (JVal.jarr (JArr.ofList evs)) JObj.nil)) =
      JVal.jarr (JArr.ofList evs) := rfl
  obtain ⟨h1, h2⟩ :=
    goBatch_logs_ok now (JArr.ofList evs).toList
      (storeOks.map (fun b => (true, b))) s hflags
  have hcb : captureBatch now (storeOks.map (fun b => (true, b)))
      (JVal.jobj (JObj.cons "batch" (JVal.jarr (JArr.ofList evs)) JObj.nil)) s =
      (CapResp.ok,
       (goBatch now (storeOks.map (fun b => (true, b)))
         (JArr.ofList evs).toList s).2) := by
    rcases hgb : goBatch now (storeOks.map (fun b => (true, b)))
        (JArr.ofList evs).toList s with ⟨o, s2⟩
    rw [hgb] at h1
    cases o with
    | none => simp only [captureBatch, hbo, hgb]
    | some m =>
      exact Option.noConfusion (show some m = (none : Option String) from h1)
  refine ⟨by rw [hcb], ?_, ?_⟩
  · rw [hcb]
    rw [h2, JArr.toList_ofList]
  · intro e rest storeOk flags2
    rfl

/-- C8, counterexample: a payload whose batch field is present but not a
sequence (`{batch: 5}`) is not treated as the empty sequence — the
`forEach` call throws and the handler answers with a 500 error response,
not the claimed success acknowledgment. -/
theorem c8_counterexample :
    captureBatch 100 [] badBatchBody st0 =
      (CapResp.err500 "Internal server error", st0) := by
  rfl

/-- C8 (amended): when the batch field is absent — or the whole body is not
an object — captureBatch records zero events and answers with the success
acknowledgment; but when a batch field is present and is not a sequence,
the handler answers with a 500 error response. -/
theorem c8_batch_default (now : Int) (flags : List (Bool × Bool)) (s : St) :
    (∀ fs : JObj, jget fs.toList "batch" = none →
        captureBatch now flags (JVal.jobj fs) s = (CapResp.ok, s))
  ∧ (∀ b : JVal, (∀ fs : JObj, b ≠ JVal.jobj fs) →
        captureBatch now flags b s = (CapResp.ok, s))
  ∧ (∀ (fs : JObj) (v : JVal), jget fs.toList "batch" = some v →
        (∀ xs : JArr, v ≠ JVal.jarr xs) →
        captureBatch now flags (JVal.jobj fs) s =
          (CapResp.err500 "Internal server error", s)) := by
  refine ⟨?_, ?_, ?_⟩
  · intro fs h
    simp [captureBatch, batchOf, h, goBatch]
  · intro b h
    cases b with
    | jobj fs => exact absurd rfl (h fs)
    | jnull => rfl
    | jbool x => rfl
    | jnum x => rfl
    | jstr x => rfl
    | jarr xs => rfl
  · intro fs v h hv
    cases v with
    | jarr xs => exact absurd rfl (hv xs)
    | jnull => simp [captureBatch, batchOf, h]
    | jbool x => simp [captureBatch, batchOf, h]
    | jnum x => simp [captureBatch, batchOf, h]
    | jstr x => simp [captureBatch, batchOf, h]
    | jobj gs => simp [captureBatch, batchOf, h]

theorem c8_batch_default_witness :
    (captureBatch 100 [] (JVal.jobj JObj.nil) st0 = (CapResp.ok, st0))
  ∧ (captureBatch 100 [] (JVal.jnum 7) st0 = (CapResp.ok, st0))
  ∧ (captureBatch 100 [] badBatchBody st0 =
      (CapResp.err500 "Internal server error", st0)) :=
  ⟨(c8_batch_default 100 [] st0).1 JObj.nil rfl,
   (c8_batch_default 100 [] st0).2.1 (JVal.jnum 7)
     (fun _ h => JVal.noConfusion h),
   (c8_batch_default 100 [] st0).2.2
     (JObj.cons "batch" (JVal.jnum 5) JObj.nil) (JVal.jnum 5) rfl
     (fun _ h => JVal.noConfusion h)⟩

/-- C4, counterexample: the windowed store `stMasked` holds one
task.feedback event whose snake_case key equals thumbs_up while its
camelCase key holds the truthy value "other"; under the claim's reading
(thumbs_up under either key) it should be counted, but the stats report
counts it in no bucket, so accepted.thumbsUp differs from the claimed
count. -/
theorem c4_counterexample :
    (computeStats 43200 stMasked).2.thumbs_up ≠
      ((statsRows 43200 stMasked).filter (fun r =>
        decide (r.event_type = JVal.jstr "task.feedback") &&
        eitherKeyIs "thumbs_up" r.properties)).length := by
  decide

/-- C4 (amended): accepted.thumbsUp counts exactly the windowed
task.feedback events whose feedbackType equals thumbs_up, or whose
feedbackType is absent or falsy and whose feedback_type equals thumbs_up
(the snake_case key is only a fallback); rejected.thumbsDown counts those
likewise equal to thumbs_down; and an event lacking a properties mapping or
lacking both feedback-type keys contributes to neither feedback bucket. -/
theorem c4_feedback_buckets (now : Int) (s : St) :
    ((computeStats now s).2.thumbs_up =
      ((statsRows now s).filter (fun r =>
        decide (r.event_type = JVal.jstr "task.feedback") &&
        fallbackKeyIs "thumbs_up" r.properties)).length)
  ∧ ((computeStats now s).2.thumbs_down =
      ((statsRows now s).filter (fun r =>
        decide (r.event_type = JVal.jstr "task.feedback") &&
        fallbackKeyIs "thumbs_down" r.properties)).length)
  ∧ (∀ (b : Buckets) (r : Row),
      jchain r.properties "feedbackType" = none →
      jchain r.properties "feedback_type" = none →
      (stepBuckets b r).thumbs_up = b.thumbs_up ∧
      (stepBuckets b r).thumbs_down = b.thumbs_down) := by
  have hpt : ∀ val : String, val ≠ "" → ∀ r : Row,
      fbCounted val r =
      (decide (r.event_type = JVal.jstr "task.feedback") &&
       fallbackKeyIs val r.properties) := by
    intro val hval r
    rw [fbCounted, fbOf_eq_fallback r.properties val hval]
  refine ⟨?_, ?_, ?_⟩
  · have h1 : (computeStats now s).2.thumbs_up
        = 0 + (statsRows now s).countP (fbCounted "thumbs_up") :=
      foldl_thumbs_up (statsRows now s) ⟨0, 0, 0, 0⟩
    rw [h1, Nat.zero_add,
        List.countP_congr (fun r _ => by rw [hpt "thumbs_up" (by decide) r]),
        List.countP_eq_length_filter]
  · have h1 : (computeStats now s).2.thumbs_down
        = 0 + (statsRows now s).countP (fbCounted "thumbs_down") :=
      foldl_thumbs_down (statsRows now s) ⟨0, 0, 0, 0⟩
    rw [h1, Nat.zero_add,
        List.countP_congr (fun r _ => by rw [hpt "thumbs_down" (by decide) r]),
        List.countP_eq_length_filter]
  · intro b r h1 h2
    constructor
    · rw [stepBuckets_thumbs_up, fbCounted]
      simp [fbOf, jsOr, h1, h2]
    · rw [stepBuckets_thumbs_down, fbCounted]
      simp [fbOf, jsOr, h1, h2]

theorem c4_feedback_buckets_witness :
    ((computeStats 43200 stMasked).2.thumbs_up =
      ((statsRows 43200 stMasked).filter (fun r =>
        decide (r.event_type = JVal.jstr "task.feedback") &&
        fallbackKeyIs "thumbs_up" r.properties)).length)
  ∧ ((stepBuckets ⟨0, 0, 0, 0⟩ rNoProps).thumbs_up =
      Buckets.thumbs_up ⟨0, 0, 0, 0⟩) :=
  ⟨(c4_feedback_buckets 43200 stMasked).1,
   ((c4_feedback_buckets 43200 stMasked).2.2 ⟨0, 0, 0, 0⟩ rNoProps rfl rfl).1⟩

/-- C5, counterexample: at now = 43200 the store `stFuture` holds one event
of type "x" captured at 43210, after now.  The stats query has no upper
bound, so the totals entry for "x" is 1, while the number of stored events
of that type within the trailing 30-day window ending now is 0. -/
theorem c5_counterexample :
    lookupTotal (computeStats 43200 stFuture).1 (JVal.jstr "x") ≠
      (stFuture.rows.filter (fun r =>
        decide (r.event_type = JVal.jstr "x") &&
        inWindowSpec 43200 r.captured_at)).length := by
  decide

/-- C5 (amended): for every event type T the totals entry for T equals the
number of stored events of type T with capturedAt at or after now − 30
days — the window has no upper bound, so future-dated events are
included — and every event older than the window start, in particular one
exactly one time unit before it, is excluded. -/
theorem c5_totals_window (now : Int) (s : St) (T : JVal) :
    (lookupTotal (computeStats now s).1 T =
      (s.rows.filter (fun r => decide (r.event_type = T) &&
        decide (now - statsWindowMinutes ≤ r.captured_at))).length)
  ∧ (∀ r ∈ s.rows, r.captured_at = now - statsWindowMinutes - 1 →
      r ∉ statsRows now s) := by
  constructor
  · have h1 : lookupTotal (computeStats now s).1 T
        = lookupTotal [] T +
          (statsRows now s).countP (fun r => decide (r.event_type = T)) :=
      lookupTotal_foldl (statsRows now s) [] T
    rw [h1, lookupTotal_nil, Nat.zero_add, statsRows, List.countP_filter,
        List.countP_eq_length_filter]
  · intro r _ hcap
    rw [statsRows, List.mem_filter]
    intro hmem
    have hw := of_decide_eq_true hmem.2
    rw [hcap] at hw
    omega

theorem c5_totals_window_witness :
    (lookupTotal (computeStats 43200 stFuture).1 (JVal.jstr "x") =
      (stFuture.rows.filter (fun r =>
        decide (r.event_type = JVal.jstr "x") &&
        decide ((43200 : Int) - statsWindowMinutes ≤ r.captured_at))).length)
  ∧ rBoundary ∉ statsRows 43200 stBoundary :=
  ⟨(c5_totals_window 43200 stFuture (JVal.jstr "x")).1,
   (c5_totals_window 43200 stBoundary (JVal.jstr "x")).2 rBoundary
     (List.mem_singleton.mpr rfl) (by decide)⟩

/-- C6: on any store whose rows carry strictly increasing SERIAL ids in
insertion order, recentToday(20) returns at most 20 events, only events of
the current calendar day, in strictly descending id order, and returns the
empty sequence — not an error — when no event of the current day exists. -/
theorem c6_recent_today (now : Int) (s : St)
    (h : s.rows.Pairwise (fun a b => a.id < b.id)) :
    ((recentToday 20 now s).length ≤ 20)
  ∧ (∀ r ∈ recentToday 20 now s, dayOf r.captured_at = dayOf now)
  ∧ ((recentToday 20 now s).Pairwise (fun a b => b.id < a.id))
  ∧ ((∀ r ∈ s.rows, dayOf r.captured_at ≠ dayOf now) →
      recentToday 20 now s = []) := by
  refine ⟨List.length_take_le _ _, ?_, ?_, ?_⟩
  · intro r hr
    have hr1 : r ∈ (s.rows.filter
        (fun x => decide (dayOf x.captured_at = dayOf now))).reverse :=
      (List.take_sublist _ _).subset hr
    rw [List.mem_reverse] at hr1
    exact of_decide_eq_true (List.mem_filter.1 hr1).2
  · exact List.Pairwise.sublist (List.take_sublist _ _)
      (List.pairwise_reverse.2 (h.filter _))
  · intro hnone
    unfold recentToday
    have hf : s.rows.filter
        (fun x => decide (dayOf x.captured_at = dayOf now)) = [] := by
      rw [List.filter_eq_nil_iff]
      intro a ha
      simp [hnone a ha]
    rw [hf]
    rfl

theorem c6_recent_today_witness :
    ((recentToday 20 200 stDays).length ≤ 20)
  ∧ ((recentToday 20 200 stDays).Pairwise (fun a b => b.id < a.id)) :=
  ⟨(c6_recent_today 200 stDays (by decide)).1,
   (c6_recent_today 200 stDays (by decide)).2.2.1⟩

/-- C9: schema initialisation ensures the events storage structure with
columns id, event_type, user_id, properties, captured_at and the index on
captured_at, and it is idempotent: whenever a call succeeds, running it
again on the resulting schema changes nothing and raises no error. -/
theorem c9_init_schema :
    (∀ d d' : Db, initSchema d = Except.ok d' → initSchema d' = Except.ok d')
  ∧ (initSchema ⟨none, []⟩ =
      Except.ok ⟨some eventsColumns, ["idx_events_captured_at"]⟩) := by
  have hidx : ∀ cols l, "idx_events_captured_at" ∈ l →
      initSchema ⟨some cols, l⟩ = Except.ok ⟨some cols, l⟩ := by
    intro cols l hm
    simp [initSchema, createTableEvents, createIndexCapturedAt, hm]
  constructor
  · intro d d' h
    obtain ⟨tbl, idx⟩ := d
    cases tbl with
    | none =>
      by_cases hm : "idx_events_captured_at" ∈ idx
      · have hd : d' = ⟨some eventsColumns, idx⟩ := by
          simp [initSchema, createTableEvents, createIndexCapturedAt, hm] at h
          exact h.symm
        subst hd
        exact hidx _ _ hm
      · have hd : d' = ⟨some eventsColumns, idx ++ ["idx_events_captured_at"]⟩ := by
          simp [initSchema, createTableEvents, createIndexCapturedAt, hm] at h
          exact h.symm
        subst hd
        exact hidx _ _ (by simp)
    | some cols =>
      by_cases hm : "idx_events_captured_at" ∈ idx
      · have hd : d' = ⟨some cols, idx⟩ := by
          simp [initSchema, createTableEvents, createIndexCapturedAt, hm] at h
          exact h.symm
        subst hd
        exact hidx _ _ hm
      · have hd : d' = ⟨some cols, idx ++ ["idx_events_captured_at"]⟩ := by
          simp [initSchema, createTableEvents, createIndexCapturedAt, hm] at h
          exact h.symm
        subst hd
        exact hidx _ _ (by simp)
  · rfl

theorem c9_init_schema_witness :
    initSchema ⟨some eventsColumns, ["idx_events_captured_at"]⟩ =
      Except.ok ⟨some eventsColumns, ["idx_events_captured_at"]⟩ :=
  c9_init_schema.1 ⟨none, []⟩
    ⟨some eventsColumns, ["idx_events_captured_at"]⟩ c9_init_schema.2

/-- C10: the snake_case feedback key is consulted only when the camelCase
key is absent or falsy: a task.feedback event whose feedbackType holds a
truthy value other than thumbs_up or thumbs_down contributes to neither
feedback bucket — and to no other counter — even if its feedback_type
equals thumbs_up or thumbs_down. -/
theorem c10_camel_priority (b : Buckets) (r : Row) (v : JVal)
    (hty : r.event_type = JVal.jstr "task.feedback")
    (hc : jchain r.properties "feedbackType" = some v)
    (htr : v.truthy = true)
    (hup : v ≠ JVal.jstr "thumbs_up")
    (hdn : v ≠ JVal.jstr "thumbs_down") :
    stepBuckets b r = b := by
  have hfb : fbOf r.properties = some v := by
    simp [fbOf, jsOr, hc, htr]
  have hne1 : ¬(JVal.jstr "task.feedback" = JVal.jstr "task.option_selected") := by
    decide
  have hne2 : ¬(JVal.jstr "task.feedback" = JVal.jstr "task.options_ignored") := by
    decide
  obtain ⟨b1, b2, b3, b4⟩ := b
  simp [stepBuckets, hty, hfb, hup, hdn, hne1, hne2]

theorem c10_camel_priority_witness :
    stepBuckets ⟨0, 0, 0, 0⟩ rMasked = ⟨0, 0, 0, 0⟩ :=
  c10_camel_priority ⟨0, 0, 0, 0⟩ rMasked (JVal.jstr "other") rfl rfl
    (by decide) (by decide) (by decide)

end ClineTelemetry
